import Mathlib

/-!
A shallow embedding of the user CRUD core of the repository
(`src/models/User.model.ts`, `src/repositories/UserRepository.ts`,
`src/services/UserService.ts`, `src/utils/WebSocketManager.ts`)
and proofs about its specification.

Modelling conventions:
* `Date` timestamps are `Nat`; every operation receives the current
  time `now : Nat` as an explicit argument (one instant per call, the
  resolution at which `new Date()` is observed inside a single call).
* `crypto.randomUUID()` is an explicit `freshId : String` argument;
  reachability of store states constrains it to be fresh, as UUIDs are.
* JavaScript object spread of a partial DTO is an `Option`-merge: an
  absent optional field is `none`.
* Thrown JavaScript values are `Except Thrown`; `Thrown.errorObj m`
  is an `Error` instance with `message = m` (`error instanceof Error`
  true) and `Thrown.nonError` is any other thrown value.
* Object copies (`{ ...user }`) of immutable records are identities in
  a pure model.
-/

/-- A user record (`User` in `user.types.ts`). -/
structure User where
  id : String
  name : String
  email : String
  createdAt : Nat
  updatedAt : Nat
deriving DecidableEq, Repr

/-- `CreateUserDto`: the fields a client supplies to create a user. -/
structure CreateUserDto where
  name : String
  email : String
deriving DecidableEq, Repr

/-- `UpdateUserDto`: partial patch; `none` models an absent field. -/
structure UpdateUserDto where
  name : Option String := none
  email : Option String := none
deriving DecidableEq, Repr

/-- A thrown JavaScript value, as discriminated by `instanceof Error`. -/
inductive Thrown where
  | errorObj (message : String)
  | nonError
deriving DecidableEq, Repr

/-- `ApiResponse<T>` from `user.types.ts`. -/
structure ApiResponse (α : Type) where
  data : Option α := none
  error : Option String := none
  message : Option String := none
deriving DecidableEq, Repr

/-- The type tag of a `UserEvent`. -/
inductive UserEventType where
  | created
  | updated
  | deleted
deriving DecidableEq, Repr

/-- `UserEvent` from `user.types.ts`. -/
structure UserEvent where
  type : UserEventType
  user : User
deriving DecidableEq, Repr

/-- `sub` occurs contiguously in `l`. -/
def hasSubstringAux (sub : List Char) : List Char → Bool
  | [] => sub.isEmpty
  | c :: rest => sub.isPrefixOf (c :: rest) || hasSubstringAux sub rest

/-- Substring test: `sub` occurs contiguously in `s` (`String.includes`). -/
def strContains (sub s : String) : Bool :=
  hasSubstringAux sub.data s.data

/-- Characters admitted by the `[^\s@]` character class of the e-mail regex. -/
def okEmailChar (c : Char) : Bool :=
  !c.isWhitespace && c != '@'

/-- `l` has a `.` at some interior position (neither first nor last). -/
def hasInteriorDot (l : List Char) : Bool :=
  (List.range l.length).any fun i =>
    l.getD i ' ' == '.' && decide (0 < i) && decide (i + 1 < l.length)

/-- JavaScript `String.prototype.trim`, on the character list. -/
def jsTrim (s : String) : List Char :=
  ((s.data.dropWhile Char.isWhitespace).reverse.dropWhile Char.isWhitespace).reverse

namespace UserModel

/-- `UserModel.isValidName`: `name.trim().length >= 2`. -/
def isValidName (name : String) : Bool :=
  decide (2 ≤ (jsTrim name).length)

/-- `UserModel.isValidEmail`: the regex `^[^\s@]+@[^\s@]+\.[^\s@]+$`,
unfolded: a nonempty `@`-free whitespace-free local part, one `@`, and a
domain over `[^\s@]` containing a dot with nonempty text on both sides. -/
def isValidEmail (email : String) : Bool :=
  let localPart := email.data.takeWhile (fun c => c != '@')
  match email.data.dropWhile (fun c => c != '@') with
  | '@' :: domain =>
    !localPart.isEmpty && localPart.all okEmailChar &&
      domain.all okEmailChar && hasInteriorDot domain
  | _ => false

/-- `UserModel.create`: builds the record stored by the repository. -/
def create (dto : CreateUserDto) (freshId : String) (now : Nat) : User :=
  { id := freshId
    name := dto.name
    email := dto.email
    createdAt := now
    updatedAt := now }

/-- `UserModel.update`: `{ ...existingUser, ...updateDto, updatedAt: new Date() }`. -/
def update (existingUser : User) (dto : UpdateUserDto) (now : Nat) : User :=
  { existingUser with
    name := dto.name.getD existingUser.name
    email := dto.email.getD existingUser.email
    updatedAt := now }

/-- `UserModel.validateCreateDto`. `!dto.name` is JS truthiness: the empty
string is falsy, so it is an explicit disjunct. -/
def validateCreateDto (dto : CreateUserDto) : List String :=
  (if dto.name == "" || !isValidName dto.name
    then ["Name must be at least 2 characters long"] else []) ++
  (if dto.email == "" || !isValidEmail dto.email
    then ["Valid email is required"] else [])

/-- `UserModel.validateUpdateDto`: each field checked only when present
(`!== undefined`). -/
def validateUpdateDto (dto : UpdateUserDto) : List String :=
  (match dto.name with
    | some n => if !isValidName n then ["Name must be at least 2 characters long"] else []
    | none => []) ++
  (match dto.email with
    | some e => if !isValidEmail e then ["Valid email is required"] else []
    | none => [])

end UserModel

namespace UserRepository

/-- The three seeded records the constructor installs (seed time 0). -/
def seedUsers : List User :=
  [ { id := "1", name := "John Doe", email := "john@example.com", createdAt := 0, updatedAt := 0 },
    { id := "2", name := "Jane Smith", email := "jane@example.com", createdAt := 0, updatedAt := 0 },
    { id := "3", name := "Alex Johnson", email := "alex@example.com", createdAt := 0, updatedAt := 0 } ]

/-- `findAll`: a copy of the collection, i.e. the collection itself. -/
def findAll (users : List User) : List User :=
  users

/-- `findById`: first record whose `id` matches, else `null`. -/
def findById (users : List User) (id : String) : Option User :=
  users.find? (fun u => u.id == id)

/-- `findByEmail`: first record whose `email` matches exactly, else `null`. -/
def findByEmail (users : List User) (email : String) : Option User :=
  users.find? (fun u => u.email == email)

/-- `create`: duplicate-email check, then push; returns a copy with a
fresh `updatedAt` (the same instant `now` within this call). -/
def create (users : List User) (dto : CreateUserDto) (freshId : String) (now : Nat) :
    Except Thrown (User × List User) :=
  match findByEmail users dto.email with
  | some _ => .error (.errorObj "User with this email already exists")
  | none =>
    let newUser := UserModel.create dto freshId now
    .ok ({ newUser with updatedAt := now }, users ++ [newUser])

/-- The `update` duplicate check: `if (updateDto.email)` is JS truthiness
(present and nonempty), and the conflict requires the found owner to be a
different record. -/
def emailConflict (users : List User) (id : String) (dto : UpdateUserDto) : Bool :=
  match dto.email with
  | some e =>
    if e != "" then
      match findByEmail users e with
      | some owner => owner.id != id
      | none => false
    else false
  | none => false

/-- `update`: locate by `findIndex`; if the patch's email is truthy (present
and nonempty) and owned by a different record, throw; else merge in place.
`.ok none` is the `null` (not found) return. -/
def update (users : List User) (id : String) (dto : UpdateUserDto) (now : Nat) :
    Except Thrown (Option (User × List User)) :=
  let index := users.findIdx (fun u => u.id == id)
  match users[index]? with
  | none => .ok none
  | some existingUser =>
    if emailConflict users id dto then
      .error (.errorObj "User with this email already exists")
    else
      let updatedUser := UserModel.update existingUser dto now
      .ok (some ({ updatedUser with updatedAt := now }, users.set index updatedUser))

/-- `delete`: locate by `findIndex`, splice out, and return a copy of the
removed record with `updatedAt` refreshed to the deletion instant. -/
def delete (users : List User) (id : String) (now : Nat) :
    Option (User × List User) :=
  let index := users.findIdx (fun u => u.id == id)
  match users[index]? with
  | none => none
  | some deletedUser =>
    some ({ deletedUser with updatedAt := now }, users.eraseIdx index)

/-- `exists`: some record has the id. -/
def existsId (users : List User) (id : String) : Bool :=
  users.any (fun u => u.id == id)

/-- `count`: the collection length. -/
def count (users : List User) : Nat :=
  users.length

/-- `findPaginated`: `users.slice(offset, offset + limit)`, as copies. -/
def findPaginated (users : List User) (offset limit : Nat) : List User :=
  (users.drop offset).take limit

end UserRepository

/-- A WebSocket-like sink. `sendFails` is its behaviour: whether a
`ws.send` on it throws. `sid` distinguishes sinks. -/
structure Sink where
  sid : Nat
  sendFails : Bool
deriving DecidableEq, Repr

/-- The observable outcome of one `broadcast` call: the surviving
connection set, the `(sid, payload)` of every attempted send in
iteration order, and the success/failure tallies it logs. -/
structure BroadcastResult where
  remaining : List Sink
  attempted : List (Nat × String)
  successCount : Nat
  failureCount : Nat
deriving DecidableEq, Repr

/-- `JSON.stringify` of a `UserEvent` (an injective rendering; its exact
text is irrelevant to the claims, only that it is computed once). -/
def serializeEvent (e : UserEvent) : String :=
  let tag :=
    match e.type with
    | .created => "created"
    | .updated => "updated"
    | .deleted => "deleted"
  "\x7b\"type\":\"" ++ tag ++ "\",\"user\":\x7b\"id\":\"" ++ e.user.id ++
    "\",\"name\":\"" ++ e.user.name ++ "\",\"email\":\"" ++ e.user.email ++
    "\"\x7d\x7d"

namespace WebSocketManager

/-- The `connections.forEach` loop of `broadcast`: try each sink with the
one pre-serialized `message`; a failing sink is dropped from the set at
once and iteration continues. -/
def broadcastLoop (message : String) : List Sink → List Sink × List (Nat × String) × Nat × Nat
  | [] => ([], [], 0, 0)
  | ws :: rest =>
    let (rem, att, succ, fail) := broadcastLoop message rest
    if ws.sendFails then
      (rem, (ws.sid, message) :: att, succ, fail + 1)
    else
      (ws :: rem, (ws.sid, message) :: att, succ + 1, fail)

/-- `broadcast`: serialize once, return early on an empty set, else fan
out best-effort. -/
def broadcast (conns : List Sink) (event : UserEvent) : BroadcastResult :=
  let message := serializeEvent event
  if conns.length == 0 then
    { remaining := conns, attempted := [], successCount := 0, failureCount := 0 }
  else
    let (rem, att, succ, fail) := broadcastLoop message conns
    { remaining := rem, attempted := att, successCount := succ, failureCount := fail }

/-- `getConnectionCount`. -/
def getConnectionCount (conns : List Sink) : Nat :=
  conns.length

end WebSocketManager

/-- The payload of a successful `getUsersPaginated`. -/
structure PaginatedUsers where
  users : List User
  total : Nat
  offset : Int
  limit : Int
deriving DecidableEq, Repr

namespace UserService

/-- The `catch` clause of `UserService.createUser`: an `Error`'s message
is returned verbatim; any other thrown value becomes the generic text. -/
def catchCreate : Thrown → ApiResponse User
  | .errorObj m => { error := some m }
  | .nonError => { error := some "Failed to create user" }

/-- The `catch` clause of `UserService.updateUser`. -/
def catchUpdate : Thrown → ApiResponse User
  | .errorObj m => { error := some m }
  | .nonError => { error := some "Failed to update user" }

/-- `UserService.createUser`: validate, create, broadcast `created`.
Returns the response, the resulting store state, and the events pushed
through the registry. -/
def createUser (users : List User) (dto : CreateUserDto) (freshId : String) (now : Nat) :
    ApiResponse User × List User × List UserEvent :=
  let validationErrors := UserModel.validateCreateDto dto
  if validationErrors.length > 0 then
    ({ error := some (String.intercalate ", " validationErrors) }, users, [])
  else
    match UserRepository.create users dto freshId now with
    | .error e => (catchCreate e, users, [])
    | .ok (newUser, users') =>
      ({ data := some newUser, message := some "User created successfully" },
        users', [{ type := .created, user := newUser }])

/-- `UserService.updateUser`: blank-id guard, patch validation, explicit
existence check, store update, broadcast `updated`. -/
def updateUser (users : List User) (id : String) (dto : UpdateUserDto) (now : Nat) :
    ApiResponse User × List User × List UserEvent :=
  if (jsTrim id).isEmpty then
    ({ error := some "User ID is required" }, users, [])
  else
    let validationErrors := UserModel.validateUpdateDto dto
    if validationErrors.length > 0 then
      ({ error := some (String.intercalate ", " validationErrors) }, users, [])
    else
      match UserRepository.findById users id with
      | none => ({ error := some "User not found" }, users, [])
      | some _existingUser =>
        match UserRepository.update users id dto now with
        | .error e => (catchUpdate e, users, [])
        | .ok none => ({ error := some "Failed to update user" }, users, [])
        | .ok (some (updatedUser, users')) =>
          ({ data := some updatedUser, message := some "User updated successfully" },
            users', [{ type := .updated, user := updatedUser }])

/-- `UserService.deleteUser`: blank-id guard, explicit existence check,
store delete, broadcast `deleted` with the returned snapshot. -/
def deleteUser (users : List User) (id : String) (now : Nat) :
    ApiResponse User × List User × List UserEvent :=
  if (jsTrim id).isEmpty then
    ({ error := some "User ID is required" }, users, [])
  else
    match UserRepository.findById users id with
    | none => ({ error := some "User not found" }, users, [])
    | some _existingUser =>
      match UserRepository.delete users id now with
      | none => ({ error := some "Failed to delete user" }, users, [])
      | some (deletedUser, users') =>
        ({ data := some deletedUser, message := some "User deleted successfully" },
          users', [{ type := .deleted, user := deletedUser }])

/-- `UserService.getUsersPaginated`: bounds guard, then slice plus an
independently computed total. -/
def getUsersPaginated (users : List User) (offset limit : Int) :
    ApiResponse PaginatedUsers :=
  if offset < 0 || limit ≤ 0 || limit > 100 then
    { error := some "Invalid pagination parameters" }
  else
    let page := UserRepository.findPaginated users offset.toNat limit.toNat
    let total := UserRepository.count users
    { data := some { users := page, total := total, offset := offset, limit := limit }
      message := some ("Retrieved " ++ toString page.length ++ " of " ++ toString total ++ " users") }

end UserService

/-- States of the store reachable from the seeded collection through the
repository's mutating operations. `crypto.randomUUID()` is modelled by
requiring the id a successful `create` installs to be fresh. -/
inductive Reachable : List User → Prop where
  | seed : Reachable UserRepository.seedUsers
  | createOk {s dto freshId now u s'} :
      Reachable s →
      (∀ v ∈ s, v.id ≠ freshId) →
      UserRepository.create s dto freshId now = .ok (u, s') →
      Reachable s'
  | updateOk {s id dto now u s'} :
      Reachable s →
      UserRepository.update s id dto now = .ok (some (u, s')) →
      Reachable s'
  | deleteOk {s id now u s'} :
      Reachable s →
      UserRepository.delete s id now = some (u, s') →
      Reachable s'

/-- No two records of `s` carry the same email (case-sensitive), the
claimed data-model invariant. -/
def EmailsUnique (s : List User) : Prop :=
  s.Pairwise (fun a b => a.email ≠ b.email)

/-- The invariant the code actually maintains: two distinct records can
agree
 on their email only when that email is the empty string. -/
def NonemptyEmailsUnique (s : List User) : Prop :=
  s.Pairwise (fun a b => a.email = b.email → a.email = "")

/-- Record ids are pairwise distinct. -/
def IdsUnique (s : List User) : Prop :=
  (s.map User.id).Nodup


/-! ### Helper lemmas -/

/-- The element at `findIdx p` is exactly what `find?` returns: the code's
`findIndex` + direct indexing agrees with its `find`-based lookups. -/
theorem getElem?_findIdx (p : α → Bool) (l : List α) :
    l[l.findIdx p]? = l.find? p := by
  induction l with
  | nil => simp
  | cons x xs ih =>
    by_cases h : p x
    · simp [List.findIdx_cons, h]
    · simp [List.findIdx_cons, h, ih]

/-- Writing back the value already stored at an index is the identity. -/
theorem set_getElem?_self {l : List α} {i : Nat} {a : α} (h : l[i]? = some a) :
    l.set i a = l := by
  apply List.ext_getElem?
  intro n
  by_cases hn : i = n
  · subst hn
    have hlt : i < l.length := (List.getElem?_eq_some_iff.1 h).1
    simp [List.getElem?_set_self hlt, h]
  · simp [List.getElem?_set_ne hn]

/-- `Pairwise` survives replacing position `i` by `u` when `u` relates to
every element at a position other than `i` (for a symmetric relation). -/
theorem pairwise_set_of_sym {R : α → α → Prop} {l : List α} {i : Nat} {u : α}
    (hsym : ∀ a b, R a b → R b a)
    (hp : l.Pairwise R)
    (hu : ∀ j b, j ≠ i → l[j]? = some b → R u b) :
    (l.set i u).Pairwise R := by
  by_cases hi : i < l.length
  · rw [List.pairwise_iff_getElem] at hp ⊢
    intro a b ha hb hab
    rw [List.length_set] at ha hb
    rcases eq_or_ne i a with rfl | hia
    · have hbne : b ≠ i := by omega
      have hb' : l[b]? = some l[b] := List.getElem?_eq_getElem hb
      have := hu b l[b] hbne hb'
      simpa [List.getElem_set, (by omega : i ≠ b), hab.ne] using this
    · rcases eq_or_ne i b with rfl | hib
      · have hane : a ≠ i := by omega
        have ha' : l[a]? = some l[a] := List.getElem?_eq_getElem ha
        have := hsym _ _ (hu a l[a] hane ha')
        simpa [List.getElem_set, hia, hab.ne'] using this
      · have := hp a b ha hb hab
        simpa [List.getElem_set, hia, hib] using this
  · rw [List.set_eq_of_length_le (by omega)]
    exact hp

/-- A `Pairwise` relation holds across any two distinct positions, for a
symmetric relation. -/
theorem pairwise_rel_of_ne {R : α → α → Prop} {l : List α}
    (hsym : ∀ a b, R a b → R b a) (hp : l.Pairwise R) {i j : Nat} {a b : α}
    (hij : i ≠ j) (ha : l[i]? = some a) (hb : l[j]? = some b) : R a b := by
  rw [List.pairwise_iff_getElem] at hp
  obtain ⟨hi, rfl⟩ := List.getElem?_eq_some_iff.1 ha
  obtain ⟨hj, rfl⟩ := List.getElem?_eq_some_iff.1 hb
  rcases Nat.lt_or_ge i j with h | h
  · exact hp i j hi hj h
  · exact hsym _ _ (hp j i hj hi (by omega))

/-- Unfolding of one step of the broadcast loop over the whole set. -/
theorem broadcastLoop_spec (message : String) (conns : List Sink) :
    WebSocketManager.broadcastLoop message conns =
      (conns.filter (fun ws => !ws.sendFails),
        conns.map (fun ws => (ws.sid, message)),
        (conns.filter (fun ws => !ws.sendFails)).length,
        (conns.filter (fun ws => ws.sendFails)).length) := by
  induction conns with
  | nil => rfl
  | cons ws rest ih =>
    by_cases h : ws.sendFails <;>
      simp [WebSocketManager.broadcastLoop, ih, List.filter_cons, h]

/-- C8: `broadcast` serializes the event exactly once (every attempted
send carries the one serialization of the event), attempts a send to
every member of the set in iteration order, retains exactly the sinks
whose send did not fail (failing sinks are evicted while the loop goes
on), and on an empty registry is a no-op returning the empty outcome. -/
theorem broadcast_best_effort (conns : List Sink) (e : UserEvent) :
    (WebSocketManager.broadcast conns e).attempted =
        conns.map (fun ws => (ws.sid, serializeEvent e)) ∧
    (WebSocketManager.broadcast conns e).remaining =
        conns.filter (fun ws => !ws.sendFails) ∧
    (WebSocketManager.broadcast conns e).successCount =
        (conns.filter (fun ws => !ws.sendFails)).length ∧
    (WebSocketManager.broadcast conns e).failureCount =
        (conns.filter (fun ws => ws.sendFails)).length ∧
    WebSocketManager.broadcast [] e =
      { remaining := [], attempted := [], successCount := 0, failureCount := 0 } := by
  cases conns with
  | nil => simp [WebSocketManager.broadcast]
  | cons ws rest =>
    refine ⟨?_, ?_, ?_, ?_, by simp [WebSocketManager.broadcast]⟩ <;>
      simp [WebSocketManager.broadcast, broadcastLoop_spec]

/-- C10: `exists(id)` holds exactly when `findById(id)` finds a record,
and `count()` equals the length of the array `findAll()` returns. -/
theorem existsId_findById_count_findAll (users : List User) (id : String) :
    (UserRepository.existsId users id = true ↔
      (UserRepository.findById users id).isSome = true) ∧
    UserRepository.count users = (UserRepository.findAll users).length := by
  constructor
  · simp [UserRepository.existsId, UserRepository.findById,
      List.any_eq_true, List.find?_isSome]
  · rfl

/-- C3, counterexample: an unexpected storage-backend failure carried by
an `Error` object is *not* masked: the `catch` clause of `createUser`
returns the internal message verbatim to the caller, so the reported
error contains the internal failure's detail and is not the generic
message. -/
theorem createUser_catch_leaks_detail :
    UserService.catchCreate (.errorObj "ECONNREFUSED 127.0.0.1:5432") =
      { error := some "ECONNREFUSED 127.0.0.1:5432" } ∧
    strContains "ECONNREFUSED 127.0.0.1:5432"
      ((UserService.catchCreate (.errorObj "ECONNREFUSED 127.0.0.1:5432")).error.getD "") = true ∧
    (UserService.catchCreate (.errorObj "ECONNREFUSED 127.0.0.1:5432")).error ≠
      some "Failed to create user" := by
  refine ⟨rfl, by decide, by decide⟩

/-- C3, amended: every failure raised inside `createUser`/`updateUser` is
caught and converted into an error outcome - nothing escapes and no data
is returned - but the masking is only partial: a failure that is an
`Error` object has its message returned to the caller verbatim, and only
non-`Error` thrown values are replaced by the generic message. -/
theorem service_catch_clauses (m : String) :
    UserService.catchCreate (.errorObj m) = { error := some m } ∧
    UserService.catchUpdate (.errorObj m) = { error := some m } ∧
    UserService.catchCreate .nonError = { error := some "Failed to create user" } ∧
    UserService.catchUpdate .nonError = { error := some "Failed to update user" } ∧
    (∀ e : Thrown, (UserService.catchCreate e).data = none ∧
      (UserService.catchCreate e).error.isSome = true ∧
      (UserService.catchUpdate e).data = none ∧
      (UserService.catchUpdate e).error.isSome = true) := by
  refine ⟨rfl, rfl, rfl, rfl, fun e => ?_⟩
  cases e <;> exact ⟨rfl, rfl, rfl, rfl⟩

/-- C7: for `offset ≥ 0` and `0 < limit ≤ 100`, `getUsersPaginated`
returns the slice of the insertion-ordered collection starting at index
`offset`, of length `min(limit, max(0, total - offset))` (`Nat`
subtraction is the truncated `max(0, ...)`), and the reported `total` is
`count()` independently of `offset` and `limit`. -/
theorem getUsersPaginated_slice (users : List User) (offset limit : Int)
    (h0 : 0 ≤ offset) (h1 : 0 < limit) (h2 : limit ≤ 100) :
    ∃ d : PaginatedUsers,
      (UserService.getUsersPaginated users offset limit).data = some d ∧
      d.total = UserRepository.count users ∧
      d.users.length = min limit.toNat (UserRepository.count users - offset.toNat) ∧
      (∀ i : Nat, i < d.users.length → d.users[i]? = users[offset.toNat + i]?) ∧
      d.offset = offset ∧ d.limit = limit := by
  have hguard : ¬(offset < 0 || limit ≤ 0 || limit > 100) = true := by
    simp only [Bool.or_eq_true, decide_eq_true_eq, not_or]
    omega
  refine ⟨{ users := UserRepository.findPaginated users offset.toNat limit.toNat,
            total := UserRepository.count users, offset := offset, limit := limit },
    ?_, rfl, ?_, ?_, rfl, rfl⟩
  · simp [UserService.getUsersPaginated, hguard]
  · simp [UserRepository.findPaginated, UserRepository.count, Nat.min_comm]
  · intro i hi
    simp only [UserRepository.findPaginated, List.length_take, List.length_drop,
      lt_min_iff] at hi
    simp [UserRepository.findPaginated, List.getElem?_take_of_lt hi.1,
      List.getElem?_drop]

/-- Witness for `getUsersPaginated_slice` at the seeded state with
`offset = 1`, `limit = 2`. -/
theorem getUsersPaginated_slice_witness :
    ∃ d : PaginatedUsers,
      (UserService.getUsersPaginated UserRepository.seedUsers 1 2).data = some d ∧
      d.total = UserRepository.count UserRepository.seedUsers ∧
      d.users.length = min (Int.toNat 2)
        (UserRepository.count UserRepository.seedUsers - Int.toNat 1) ∧
      (∀ i : Nat, i < d.users.length →
        d.users[i]? = UserRepository.seedUsers[Int.toNat 1 + i]?) ∧
      d.offset = 1 ∧ d.limit = 2 :=
  getUsersPaginated_slice UserRepository.seedUsers 1 2
    (by decide) (by decide) (by decide)

/-- Inversion of a successful `create`: the duplicate check found no
record with that email, the new record is the `UserModel.create` one,
and it was appended at the end. -/
theorem create_ok_inv {users dto freshId now u s'}
    (h : UserRepository.create users dto freshId now = .ok (u, s')) :
    UserRepository.findByEmail users dto.email = none ∧
    u = UserModel.create dto freshId now ∧
    s' = users ++ [UserModel.create dto freshId now] := by
  cases he : UserRepository.findByEmail users dto.email with
  | some w => simp [UserRepository.create, he] at h
  | none =>
    simp only [UserRepository.create, he, Except.ok.injEq, Prod.mk.injEq] at h
    exact ⟨rfl, h.1 ▸ rfl, h.2.symm⟩

/-- A `create` that did not succeed changed nothing and threw the
duplicate-email `Error`. -/
theorem create_conflict {users : List User} {dto : CreateUserDto} {freshId : String}
    {now : Nat} {w : User}
    (he : UserRepository.findByEmail users dto.email = some w) :
    UserRepository.create users dto freshId now =
      .error (.errorObj "User with this email already exists") := by
  simp [UserRepository.create, he]

/-- Inversion of a successful, record-returning `update`: the record at
`findIndex` is the one `findById` yields, the result is the
`UserModel.update` merge of it, stored in place, and the truthy-email
conflict check passed. -/
theorem update_ok_some_inv {users id dto now u' s'}
    (h : UserRepository.update users id dto now = .ok (some (u', s'))) :
    ∃ u, users[users.findIdx (fun v => v.id == id)]? = some u ∧
      UserRepository.findById users id = some u ∧
      u' = UserModel.update u dto now ∧
      s' = users.set (users.findIdx (fun v => v.id == id)) (UserModel.update u dto now) ∧
      (UserRepository.emailConflict users id dto = false) := by
  cases hu : users[users.findIdx (fun v => v.id == id)]? with
  | none => simp [UserRepository.update, hu] at h
  | some u =>
    refine ⟨u, rfl, ?_, ?_⟩
    · simp only [UserRepository.findById]
      rw [← getElem?_findIdx]
      exact hu
    · cases hc : UserRepository.emailConflict users id dto with
      | true => simp [UserRepository.update, hu, hc] at h
      | false =>
        simp only [UserRepository.update, hu, hc, Bool.false_eq_true, if_false,
          Except.ok.injEq, Option.some.injEq, Prod.mk.injEq] at h
        refine ⟨?_, h.2.symm, rfl⟩
        rw [← h.1]
        simp [UserModel.update]

/-- A conflict-free check with a truthy patch email means any record
found under that email is the updated record itself. -/
theorem emailConflict_false_inv {users : List User} {id : String}
    {dto : UpdateUserDto} {e : String} {w : User}
    (hc : UserRepository.emailConflict users id dto = false)
    (hei : dto.email = some e) (hne : e ≠ "")
    (hw : UserRepository.findByEmail users e = some w) : w.id = id := by
  simp only [UserRepository.emailConflict, hei, hne, hw, bne_iff_ne, ne_eq,
    ite_eq_right_iff, if_pos] at hc
  simpa [hne] using hc

/-- An `update` whose truthy patch email belongs to a different record
throws the duplicate-email `Error`. -/
theorem update_conflict {users : List User} {id : String} {dto : UpdateUserDto}
    {now : Nat} {u w : User} {e : String}
    (hu : users[users.findIdx (fun v => v.id == id)]? = some u)
    (he : dto.email = some e) (hne : e ≠ "")
    (hw : UserRepository.findByEmail users e = some w) (hwid : w.id ≠ id) :
    UserRepository.update users id dto now =
      .error (.errorObj "User with this email already exists") := by
  have hc : UserRepository.emailConflict users id dto = true := by
    simp [UserRepository.emailConflict, he, hne, hw, hwid]
  simp [UserRepository.update, hu, hc]

/-- Inversion of a successful `delete`: the record at `findIndex` is the
`findById` one; the returned snapshot is it with `updatedAt` refreshed;
the state loses exactly that index. -/
theorem delete_some_inv {users id now d s'}
    (h : UserRepository.delete users id now = some (d, s')) :
    ∃ u, UserRepository.findById users id = some u ∧
      d = { u with updatedAt := now } ∧
      s' = users.eraseIdx (users.findIdx (fun v => v.id == id)) := by
  cases hu : users[users.findIdx (fun v => v.id == id)]? with
  | none => simp [UserRepository.delete, hu] at h
  | some u =>
    refine ⟨u, ?_, ?_⟩
    · simp only [UserRepository.findById]
      rw [← getElem?_findIdx]
      exact hu
    · simp only [UserRepository.delete, hu, Option.some.injEq, Prod.mk.injEq] at h
      exact ⟨h.1.symm, h.2.symm⟩

/-- `delete` on a present id: forward evaluation. -/
theorem delete_eq_of_found {users : List User} {id : String} {u : User} (now : Nat)
    (h : UserRepository.findById users id = some u) :
    UserRepository.delete users id now =
      some ({ u with updatedAt := now },
        users.eraseIdx (users.findIdx (fun v => v.id == id))) := by
  have hu : users[users.findIdx (fun v => v.id == id)]? = some u := by
    rw [getElem?_findIdx]; exact h
  simp [UserRepository.delete, hu]

/-- C9: each mutating store operation touches only its target. `create`
appends at the end; `update` writes back in place at the found index,
leaving every other position untouched; `delete` removes exactly the
found index, shifting later positions down by one and leaving earlier
ones untouched. -/
theorem mutators_frame (users : List User) (dto : CreateUserDto) (freshId : String)
    (id : String) (udto : UpdateUserDto) (now : Nat) :
    (∀ u s', UserRepository.create users dto freshId now = .ok (u, s') →
      s' = users ++ [u]) ∧
    (∀ u' s', UserRepository.update users id udto now = .ok (some (u', s')) →
      s' = users.set (users.findIdx (fun v => v.id == id)) u' ∧
      s'.length = users.length ∧
      ∀ j, j ≠ users.findIdx (fun v => v.id == id) → s'[j]? = users[j]?) ∧
    (∀ d s', UserRepository.delete users id now = some (d, s') →
      s' = users.eraseIdx (users.findIdx (fun v => v.id == id)) ∧
      (∀ j, j < users.findIdx (fun v => v.id == id) → s'[j]? = users[j]?) ∧
      (∀ j, users.findIdx (fun v => v.id == id) ≤ j → s'[j]? = users[j + 1]?)) := by
  refine ⟨?_, ?_, ?_⟩
  · intro u s' h
    obtain ⟨-, hu, hs⟩ := create_ok_inv h
    rw [hs, hu]
  · intro u' s' h
    obtain ⟨u, -, -, hu', hs, -⟩ := update_ok_some_inv h
    subst hu'
    refine ⟨hs, by rw [hs]; exact List.length_set .., ?_⟩
    intro j hj
    rw [hs, List.getElem?_set_ne (Ne.symm hj)]
  · intro d s' h
    obtain ⟨u, hfind, -, hs⟩ := delete_some_inv h
    have hfind' : users.find? (fun v => v.id == id) = some u := hfind
    have hpu : (fun v : User => v.id == id) u = true :=
      List.find?_some (p := fun v : User => v.id == id) (a := u) hfind'
    have hmem : ∃ x ∈ users, x.id == id :=
      ⟨u, List.mem_of_find?_eq_some hfind', hpu⟩
    have hidx : users.findIdx (fun v => v.id == id) < users.length :=
      List.findIdx_lt_length_of_exists hmem
    set i := users.findIdx (fun v => v.id == id) with hi
    refine ⟨hs, ?_, ?_⟩
    · intro j hj
      rw [hs, List.eraseIdx_eq_take_drop_succ,
        List.getElem?_append_left (by simpa using by omega),
        List.getElem?_take_of_lt hj]
    · intro j hj
      rw [hs, List.eraseIdx_eq_take_drop_succ,
        List.getElem?_append_right (by simpa using by omega),
        List.getElem?_drop]
      congr 1
      simp only [List.length_take]
      omega

/-- Witness for `mutators_frame`: the update clause at the seeded state,
patching user `"2"`'s name at time 3. -/
theorem mutators_frame_witness :
    ([ { id := "1", name := "John Doe", email := "john@example.com", createdAt := 0, updatedAt := 0 },
       { id := "2", name := "Janet", email := "jane@example.com", createdAt := 0, updatedAt := 3 },
       { id := "3", name := "Alex Johnson", email := "alex@example.com", createdAt := 0, updatedAt := 0 } ] : List User) =
      UserRepository.seedUsers.set
        (UserRepository.seedUsers.findIdx (fun v => v.id == "2"))
        { id := "2", name := "Janet", email := "jane@example.com", createdAt := 0, updatedAt := 3 } ∧
    ([ { id := "1", name := "John Doe", email := "john@example.com", createdAt := 0, updatedAt := 0 },
       { id := "2", name := "Janet", email := "jane@example.com", createdAt := 0, updatedAt := 3 },
       { id := "3", name := "Alex Johnson", email := "alex@example.com", createdAt := 0, updatedAt := 0 } ] : List User).length =
      UserRepository.seedUsers.length ∧
    ∀ j, j ≠ UserRepository.seedUsers.findIdx (fun v => v.id == "2") →
      ([ { id := "1", name := "John Doe", email := "john@example.com", createdAt := 0, updatedAt := 0 },
         { id := "2", name := "Janet", email := "jane@example.com", createdAt := 0, updatedAt := 3 },
         { id := "3", name := "Alex Johnson", email := "alex@example.com", createdAt := 0, updatedAt := 0 } ] : List User)[j]? =
        UserRepository.seedUsers[j]? :=
  (mutators_frame UserRepository.seedUsers
      { name := "Ann Lee", email := "ann@x.com" } "7" "2"
      { name := some "Janet", email := none } 3).2.1
    { id := "2", name := "Janet", email := "jane@example.com", createdAt := 0, updatedAt := 3 }
    _ rfl

/-- C2, counterexample: deleting seeded user `"1"` at time 5 returns a
snapshot whose `updatedAt` is 5, while the record as stored immediately
before removal had `updatedAt` 0 - the returned (and broadcast) snapshot
is not the pre-removal snapshot fieldwise. -/
theorem delete_not_stored_snapshot :
    (UserRepository.delete UserRepository.seedUsers "1" 5).map Prod.fst ≠
      UserRepository.findById UserRepository.seedUsers "1" ∧
    (UserRepository.delete UserRepository.seedUsers "1" 5).map
      (fun p => p.1.updatedAt) = some 5 ∧
    (UserRepository.findById UserRepository.seedUsers "1").map
      User.updatedAt = some 0 := by
  refine ⟨by decide, rfl, rfl⟩

/-- C2, amended: `delete(id)` on a present id succeeds and returns the
stored record with `id`, `name`, `email`, `createdAt` unchanged but
`updatedAt` refreshed to the deletion time, and `deleteUser` emits the
`deleted` event carrying that same returned snapshot. -/
theorem delete_returns_refreshed_snapshot (users : List User) (id : String)
    (now : Nat) (u : User)
    (h : UserRepository.findById users id = some u)
    (htrim : (jsTrim id).isEmpty = false) :
    UserRepository.delete users id now =
      some ({ u with updatedAt := now },
        users.eraseIdx (users.findIdx (fun v => v.id == id))) ∧
    UserService.deleteUser users id now =
      ({ data := some { u with updatedAt := now },
          message := some "User deleted successfully" },
        users.eraseIdx (users.findIdx (fun v => v.id == id)),
        [{ type := .deleted, user := { u with updatedAt := now } }]) := by
  have hd := delete_eq_of_found now h
  refine ⟨hd, ?_⟩
  simp [UserService.deleteUser, htrim, h, hd]

/-- Witness for `delete_returns_refreshed_snapshot`: seeded state, id
`"1"`, deletion time 5. -/
theorem delete_returns_refreshed_snapshot_witness :
    UserRepository.delete UserRepository.seedUsers "1" 5 =
      some ({ id := "1", name := "John Doe", email := "john@example.com",
              createdAt := 0, updatedAt := 5 },
        UserRepository.seedUsers.eraseIdx
          (UserRepository.seedUsers.findIdx (fun v => v.id == "1"))) ∧
    UserService.deleteUser UserRepository.seedUsers "1" 5 =
      ({ data := some { id := "1", name := "John Doe", email := "john@example.com",
                        createdAt := 0, updatedAt := 5 },
          message := some "User deleted successfully" },
        UserRepository.seedUsers.eraseIdx
          (UserRepository.seedUsers.findIdx (fun v => v.id == "1")),
        [{ type := .deleted,
           user := { id := "1", name := "John Doe", email := "john@example.com",
                     createdAt := 0, updatedAt := 5 } }]) :=
  delete_returns_refreshed_snapshot UserRepository.seedUsers "1" 5
    { id := "1", name := "John Doe", email := "john@example.com",
      createdAt := 0, updatedAt := 0 } rfl rfl

/-- A dto whose name and email pass the model validators produces no
validation errors (the JS truthiness disjuncts cannot fire: the empty
string passes neither validator). -/
theorem validateCreateDto_nil {dto : CreateUserDto}
    (hn : UserModel.isValidName dto.name = true)
    (he : UserModel.isValidEmail dto.email = true) :
    UserModel.validateCreateDto dto = [] := by
  have hn0 : (dto.name == "") = false := by
    rcases eq_or_ne dto.name "" with h | h
    · rw [h] at hn
      exact absurd hn (by decide)
    · simp [h]
  have he0 : (dto.email == "") = false := by
    rcases eq_or_ne dto.email "" with h | h
    · rw [h] at he
      exact absurd he (by decide)
    · simp [h]
  simp [UserModel.validateCreateDto, hn0, he0, hn, he]

/-- C5: creating a user whose email is already owned by a live record
(and whose name and email pass validation, as any live record's email
does) fails with the duplicate-email error - whose text contains
`"already exists"` - and returns the collection unchanged, with no
record added or modified and no event broadcast. -/
theorem createUser_duplicate_email (users : List User) (dto : CreateUserDto)
    (freshId : String) (now : Nat) (u : User)
    (hu : u ∈ users) (he : u.email = dto.email)
    (hname : UserModel.isValidName dto.name = true)
    (hemail : UserModel.isValidEmail dto.email = true) :
    UserService.createUser users dto freshId now =
      ({ error := some "User with this email already exists" }, users, []) ∧
    strContains "already exists" "User with this email already exists" = true := by
  refine ⟨?_, by decide⟩
  have hv := validateCreateDto_nil hname hemail
  have hsome : (users.find? (fun v => v.email == dto.email)).isSome :=
    List.find?_isSome.2 ⟨u, hu, by simp [he]⟩
  obtain ⟨w, hw⟩ := Option.isSome_iff_exists.1 hsome
  have hc := @create_conflict users dto freshId now w hw
  simp [UserService.createUser, hv, hc, UserService.catchCreate]

/-- Witness for `createUser_duplicate_email`: the seeded state already
owns `john@example.com`. -/
theorem createUser_duplicate_email_witness :
    UserService.createUser UserRepository.seedUsers
        { name := "Ann Lee", email := "john@example.com" } "9" 7 =
      ({ error := some "User with this email already exists" },
        UserRepository.seedUsers, []) ∧
    strContains "already exists" "User with this email already exists" = true :=
  createUser_duplicate_email UserRepository.seedUsers
    { name := "Ann Lee", email := "john@example.com" } "9" 7
    { id := "1", name := "John Doe", email := "john@example.com",
      createdAt := 0, updatedAt := 0 }
    (by simp [UserRepository.seedUsers]) rfl (by decide) (by decide)

/-- C4: `updateUser` validates only the fields present in the patch (a
name error can only arise from a present invalid name, an email error
only from a present invalid email, and an all-absent patch validates
clean), and a successful update merges exactly the provided fields over
the record `findById` yields - absent fields keep their stored values,
`id` and `createdAt` are untouched - sets `updatedAt` to `now`, and
stores the merged record in place. -/
theorem updateUser_validates_present_merges_patch (users : List User)
    (id : String) (dto : UpdateUserDto) (now : Nat) :
    ("Name must be at least 2 characters long" ∈ UserModel.validateUpdateDto dto →
      ∃ n, dto.name = some n ∧ UserModel.isValidName n = false) ∧
    ("Valid email is required" ∈ UserModel.validateUpdateDto dto →
      ∃ e, dto.email = some e ∧ UserModel.isValidEmail e = false) ∧
    (dto.name = none → dto.email = none → UserModel.validateUpdateDto dto = []) ∧
    (∀ res users' evs u', UserService.updateUser users id dto now = (res, users', evs) →
      res.data = some u' →
      ∃ u, UserRepository.findById users id = some u ∧
        u'.id = u.id ∧ u'.createdAt = u.createdAt ∧ u'.updatedAt = now ∧
        u'.name = dto.name.getD u.name ∧ u'.email = dto.email.getD u.email ∧
        users' = users.set (users.findIdx (fun v => v.id == id)) u') := by
  refine ⟨?_, ?_, ?_, ?_⟩
  · intro hmem
    rcases hn : dto.name with - | n
    · exfalso
      rcases he : dto.email with - | e
      · simp [UserModel.validateUpdateDto, hn, he] at hmem
      · by_cases hv : UserModel.isValidEmail e = true <;>
          simp [UserModel.validateUpdateDto, hn, he, hv] at hmem
    · by_cases hv : UserModel.isValidName n = true
      · exfalso
        rcases he : dto.email with - | e
        · simp [UserModel.validateUpdateDto, hn, he, hv] at hmem
        · by_cases hve : UserModel.isValidEmail e = true <;>
            simp [UserModel.validateUpdateDto, hn, he, hv, hve] at hmem
      · exact ⟨n, rfl, by simpa using hv⟩
  · intro hmem
    rcases he : dto.email with - | e
    · exfalso
      rcases hn : dto.name with - | n
      · simp [UserModel.validateUpdateDto, hn, he] at hmem
      · by_cases hv : UserModel.isValidName n = true <;>
          simp [UserModel.validateUpdateDto, hn, he, hv] at hmem
    · by_cases hv : UserModel.isValidEmail e = true
      · exfalso
        rcases hn : dto.name with - | n
        · simp [UserModel.validateUpdateDto, hn, he, hv] at hmem
        · by_cases hvn : UserModel.isValidName n = true <;>
            simp [UserModel.validateUpdateDto, hn, he, hv, hvn] at hmem
      · exact ⟨e, rfl, by simpa using hv⟩
  · intro hn he
    simp [UserModel.validateUpdateDto, hn, he]
  · intro res users' evs u' hrun hdata
    cases htrim : (jsTrim id).isEmpty with
    | true =>
      simp only [UserService.updateUser, htrim, if_true, Prod.mk.injEq] at hrun
      rw [← hrun.1] at hdata
      simp at hdata
    | false =>
      cases hv : UserModel.validateUpdateDto dto with
      | cons a l =>
        simp only [UserService.updateUser, htrim, hv, Bool.false_eq_true, if_false,
          List.length_cons, Nat.succ_pos, if_true, Prod.mk.injEq] at hrun
        rw [← hrun.1] at hdata
        simp at hdata
      | nil =>
        cases hfb : UserRepository.findById users id with
        | none =>
          simp only [UserService.updateUser, htrim, hv, Bool.false_eq_true, if_false,
            List.length_nil, Nat.lt_irrefl, hfb, Prod.mk.injEq] at hrun
          rw [← hrun.1] at hdata
          simp at hdata
        | some u0 =>
          cases hup : UserRepository.update users id dto now with
          | error e =>
            simp only [UserService.updateUser, htrim, hv, Bool.false_eq_true, if_false,
              List.length_nil, Nat.lt_irrefl, hfb, hup, Prod.mk.injEq] at hrun
            rw [← hrun.1] at hdata
            cases e <;> simp [UserService.catchUpdate] at hdata
          | ok ou =>
            cases ou with
            | none =>
              simp only [UserService.updateUser, htrim, hv, Bool.false_eq_true, if_false,
                List.length_nil, Nat.lt_irrefl, hfb, hup, Prod.mk.injEq] at hrun
              rw [← hrun.1] at hdata
              simp at hdata
            | some p =>
              obtain ⟨uu, ss⟩ := p
              simp only [UserService.updateUser, htrim, hv, Bool.false_eq_true, if_false,
                List.length_nil, Nat.lt_irrefl, hfb, hup, Prod.mk.injEq] at hrun
              obtain ⟨hres, husers, -⟩ := hrun
              rw [← hres] at hdata
              simp only [Option.some.injEq] at hdata
              obtain ⟨u, -, hfind, huu, hset, -⟩ := update_ok_some_inv hup
              refine ⟨u, by rw [← hfb]; exact hfind, ?_, ?_, ?_, ?_, ?_, ?_⟩ <;>
                simp [← hdata, huu, UserModel.update, ← husers, hset]

/-- Witness for `updateUser_validates_present_merges_patch`: patching
only the name of seeded user `"1"` at time 6. -/
theorem updateUser_merges_patch_witness :
    ∃ u, UserRepository.findById UserRepository.seedUsers "1" = some u ∧
      ({ id := "1", name := "Bobby", email := "john@example.com",
         createdAt := 0, updatedAt := 6 } : User).id = u.id ∧
      ({ id := "1", name := "Bobby", email := "john@example.com",
         createdAt := 0, updatedAt := 6 } : User).createdAt = u.createdAt ∧
      ({ id := "1", name := "Bobby", email := "john@example.com",
         createdAt := 0, updatedAt := 6 } : User).updatedAt = 6 ∧
      ({ id := "1", name := "Bobby", email := "john@example.com",
         createdAt := 0, updatedAt := 6 } : User).name = (some "Bobby").getD u.name ∧
      ({ id := "1", name := "Bobby", email := "john@example.com",
         createdAt := 0, updatedAt := 6 } : User).email = (none : Option String).getD u.email ∧
      ([ { id := "1", name := "Bobby", email := "john@example.com",
           createdAt := 0, updatedAt := 6 },
         { id := "2", name := "Jane Smith", email := "jane@example.com",
           createdAt := 0, updatedAt := 0 },
         { id := "3", name := "Alex Johnson", email := "alex@example.com",
           createdAt := 0, updatedAt := 0 } ] : List User) =
        UserRepository.seedUsers.set
          (UserRepository.seedUsers.findIdx (fun v => v.id == "1"))
          { id := "1", name := "Bobby", email := "john@example.com",
            createdAt := 0, updatedAt := 6 } :=
  (updateUser_validates_present_merges_patch UserRepository.seedUsers "1"
      { name := some "Bobby", email := none } 6).2.2.2
    { data := some { id := "1", name := "Bobby", email := "john@example.com",
                     createdAt := 0, updatedAt := 6 },
      message := some "User updated successfully" }
    [ { id := "1", name := "Bobby", email := "john@example.com",
        createdAt := 0, updatedAt := 6 },
      { id := "2", name := "Jane Smith", email := "jane@example.com",
        createdAt := 0, updatedAt := 0 },
      { id := "3", name := "Alex Johnson", email := "alex@example.com",
        createdAt := 0, updatedAt := 0 } ]
    [{ type := .updated,
       user := { id := "1", name := "Bobby", email := "john@example.com",
                 createdAt := 0, updatedAt := 6 } }]
    { id := "1", name := "Bobby", email := "john@example.com",
      createdAt := 0, updatedAt := 6 }
    rfl rfl

/-- C6: with two distinct live users - `A` owning valid email `E`
(`findByEmail` resolves `E` to `A`) and `B` another record - updating
`B` to email `E` fails with the duplicate-email conflict and leaves the
collection (hence `B`'s record) unchanged, while updating `A` to its own
current email `E` succeeds with no conflict, returning and storing `A`
with `updatedAt` refreshed. -/
theorem updateUser_conflict_other_not_self (users : List User) (A B : User)
    (E : String) (now : Nat)
    (hA : UserRepository.findByEmail users E = some A)
    (hAfind : UserRepository.findById users A.id = some A)
    (hBfind : UserRepository.findById users B.id = some B)
    (hne : A.id ≠ B.id)
    (hAe : A.email = E)
    (hEv : UserModel.isValidEmail E = true)
    (hAtrim : (jsTrim A.id).isEmpty = false)
    (hBtrim : (jsTrim B.id).isEmpty = false) :
    UserService.updateUser users B.id { name := none, email := some E } now =
      ({ error := some "User with this email already exists" }, users, []) ∧
    UserService.updateUser users A.id { name := none, email := some E } now =
      ({ data := some { id := A.id, name := A.name, email := E,
                        createdAt := A.createdAt, updatedAt := now },
          message := some "User updated successfully" },
        users.set (users.findIdx (fun v => v.id == A.id))
          { id := A.id, name := A.name, email := E,
            createdAt := A.createdAt, updatedAt := now },
        [{ type := .updated,
           user := { id := A.id, name := A.name, email := E,
                     createdAt := A.createdAt, updatedAt := now } }]) := by
  have hE0 : E ≠ "" := by
    rcases eq_or_ne E "" with h | h
    · rw [h] at hEv
      exact absurd hEv (by decide)
    · exact h
  have hval : UserModel.validateUpdateDto { name := none, email := some E } = [] := by
    simp [UserModel.validateUpdateDto, hEv]
  have huB : users[users.findIdx (fun v => v.id == B.id)]? = some B := by
    rw [getElem?_findIdx]
    exact hBfind
  have huA : users[users.findIdx (fun v => v.id == A.id)]? = some A := by
    rw [getElem?_findIdx]
    exact hAfind
  constructor
  · have hupdB : UserRepository.update users B.id { name := none, email := some E } now =
        .error (.errorObj "User with this email already exists") :=
      update_conflict huB rfl hE0 hA hne
    simp [UserService.updateUser, hBtrim, hval, hBfind, hupdB, UserService.catchUpdate]
  · have hcA : UserRepository.emailConflict users A.id { name := none, email := some E } = false := by
      simp [UserRepository.emailConflict, hA, hE0]
    have hupdA : UserRepository.update users A.id { name := none, email := some E } now =
        .ok (some ({ id := A.id, name := A.name, email := E,
                     createdAt := A.createdAt, updatedAt := now },
          users.set (users.findIdx (fun v => v.id == A.id))
            { id := A.id, name := A.name, email := E,
              createdAt := A.createdAt, updatedAt := now })) := by
      simp [UserRepository.update, huA, hcA, UserModel.update]
    simp [UserService.updateUser, hAtrim, hval, hAfind, hupdA]

/-- Witness for `updateUser_conflict_other_not_self`: seeded users `"1"`
(owner of `john@example.com`) and `"2"`, at time 9. -/
theorem updateUser_conflict_witness :
    UserService.updateUser UserRepository.seedUsers "2"
        { name := none, email := some "john@example.com" } 9 =
      ({ error := some "User with this email already exists" },
        UserRepository.seedUsers, []) ∧
    UserService.updateUser UserRepository.seedUsers "1"
        { name := none, email := some "john@example.com" } 9 =
      ({ data := some { id := "1", name := "John Doe", email := "john@example.com",
                        createdAt := 0, updatedAt := 9 },
          message := some "User updated successfully" },
        UserRepository.seedUsers.set
          (UserRepository.seedUsers.findIdx (fun v => v.id == "1"))
          { id := "1", name := "John Doe", email := "john@example.com",
            createdAt := 0, updatedAt := 9 },
        [{ type := .updated,
           user := { id := "1", name := "John Doe", email := "john@example.com",
                     createdAt := 0, updatedAt := 9 } }]) :=
  updateUser_conflict_other_not_self UserRepository.seedUsers
    { id := "1", name := "John Doe", email := "john@example.com",
      createdAt := 0, updatedAt := 0 }
    { id := "2", name := "Jane Smith", email := "jane@example.com",
      createdAt := 0, updatedAt := 0 }
    "john@example.com" 9 rfl rfl rfl (by decide) rfl (by decide) rfl rfl

/-- C1, counterexample: a state reachable from the seeded collection by
two store-level updates whose patch email is the empty string - JS
truthiness skips the duplicate check for `""` - holds two live records
(ids `"1"` and `"2"`) sharing the same email under exact comparison. -/
theorem reachable_duplicate_email :
    Reachable
      [ { id := "1", name := "John Doe", email := "", createdAt := 0, updatedAt := 4 },
        { id := "2", name := "Jane Smith", email := "", createdAt := 0, updatedAt := 5 },
        { id := "3", name := "Alex Johnson", email := "alex@example.com", createdAt := 0, updatedAt := 0 } ] ∧
    ¬ EmailsUnique
      [ { id := "1", name := "John Doe", email := "", createdAt := 0, updatedAt := 4 },
        { id := "2", name := "Jane Smith", email := "", createdAt := 0, updatedAt := 5 },
        { id := "3", name := "Alex Johnson", email := "alex@example.com", createdAt := 0, updatedAt := 0 } ] := by
  constructor
  · have h1 : UserRepository.update UserRepository.seedUsers "1"
        { name := none, email := some "" } 4 =
        .ok (some ({ id := "1", name := "John Doe", email := "", createdAt := 0, updatedAt := 4 },
          [ { id := "1", name := "John Doe", email := "", createdAt := 0, updatedAt := 4 },
            { id := "2", name := "Jane Smith", email := "jane@example.com", createdAt := 0, updatedAt := 0 },
            { id := "3", name := "Alex Johnson", email := "alex@example.com", createdAt := 0, updatedAt := 0 } ])) := rfl
    have h2 : UserRepository.update
        [ { id := "1", name := "John Doe", email := "", createdAt := 0, updatedAt := 4 },
          { id := "2", name := "Jane Smith", email := "jane@example.com", createdAt := 0, updatedAt := 0 },
          { id := "3", name := "Alex Johnson", email := "alex@example.com", createdAt := 0, updatedAt := 0 } ]
        "2" { name := none, email := some "" } 5 =
        .ok (some ({ id := "2", name := "Jane Smith", email := "", createdAt := 0, updatedAt := 5 },
          [ { id := "1", name := "John Doe", email := "", createdAt := 0, updatedAt := 4 },
            { id := "2", name := "Jane Smith", email := "", createdAt := 0, updatedAt := 5 },
            { id := "3", name := "Alex Johnson", email := "alex@example.com", createdAt := 0, updatedAt := 0 } ])) := rfl
    exact Reachable.updateOk (Reachable.updateOk Reachable.seed h1) h2
  · intro h
    have h' : List.Pairwise (fun a b : User => a.email ≠ b.email)
        [ { id := "1", name := "John Doe", email := "", createdAt := 0, updatedAt := 4 },
          { id := "2", name := "Jane Smith", email := "", createdAt := 0, updatedAt := 5 },
          { id := "3", name := "Alex Johnson", email := "alex@example.com", createdAt := 0, updatedAt := 0 } ] := h
    exact List.rel_of_pairwise_cons h'
      (List.mem_cons_self
        ({ id := "2", name := "Jane Smith", email := "", createdAt := 0, updatedAt := 5 } : User)
        ([ { id := "3", name := "Alex Johnson", email := "alex@example.com",
             createdAt := 0, updatedAt := 0 } ] : List User)) rfl

/-- The relation of `NonemptyEmailsUnique` is symmetric. -/
theorem nonemptyEmailRel_symm (a b : User)
    (h : a.email = b.email → a.email = "") :
    b.email = a.email → b.email = "" := by
  intro h'
  rw [h']
  exact h h'.symm

/-- C1, amended: in every reachable store state, ids are pairwise
distinct and no two live records share the same *non-empty* email. Full
email uniqueness fails only through update patches carrying the empty
string, which the truthy guard exempts from the duplicate check. -/
theorem reachable_ids_nonempty_emails_unique (s : List User) (h : Reachable s) :
    IdsUnique s ∧ NonemptyEmailsUnique s := by
  induction h with
  | seed =>
    constructor
    · rw [IdsUnique]
      decide
    · rw [NonemptyEmailsUnique]
      decide
  | createOk hr hfresh heq ih =>
    rename_i s dto freshId now u s'
    obtain ⟨hnone, hu, hs⟩ := create_ok_inv heq
    subst hs
    have hnone' : ∀ v ∈ s, ¬(v.email == dto.email) = true :=
      List.find?_eq_none.1 hnone
    constructor
    · rw [IdsUnique, List.map_append]
      rw [List.nodup_append]
      refine ⟨ih.1, by simp, ?_⟩
      intro a ha hb
      obtain ⟨v, hv, rfl⟩ := List.mem_map.1 ha
      simp only [List.map_cons, List.map_nil, List.mem_cons,
        List.not_mem_nil, or_false, UserModel.create] at hb
      exact hfresh v hv hb
    · rw [NonemptyEmailsUnique]
      rw [List.pairwise_append]
      refine ⟨ih.2, by simp, ?_⟩
      intro a ha b hb
      simp only [List.mem_singleton] at hb
      subst hb
      intro hab
      exfalso
      apply hnone' a ha
      simp only [UserModel.create] at hab
      simp [hab]
  | updateOk hr heq ih =>
    rename_i s id dto now u' s'
    obtain ⟨u, hget, hfind, hu', hset, hconf⟩ := update_ok_some_inv heq
    subst hset
    obtain ⟨hlt, hgetelem⟩ := List.getElem?_eq_some_iff.1 hget
    have huid : u.id = id := by
      have hp := @List.findIdx_getElem _ (fun v => v.id == id) s hlt
      rw [hgetelem] at hp
      simpa using hp
    have hupdid : (UserModel.update u dto now).id = u.id := rfl
    constructor
    · rw [IdsUnique, List.map_set, hupdid]
      rw [set_getElem?_self (by simp [hget])]
      exact ih.1
    · rw [NonemptyEmailsUnique]
      apply pairwise_set_of_sym nonemptyEmailRel_symm ih.2
      intro j b hj hb
      have hbmem : b ∈ s := List.mem_iff_getElem?.2 ⟨j, hb⟩
      cases hde : dto.email with
      | none =>
        have he : (UserModel.update u dto now).email = u.email := by
          simp [UserModel.update, hde]
        rw [he]
        exact pairwise_rel_of_ne nonemptyEmailRel_symm ih.2
          (Ne.symm hj) hget hb
      | some e =>
        have he : (UserModel.update u dto now).email = e := by
          simp [UserModel.update, hde]
        rw [he]
        by_cases he0 : e = ""
        · intro _
          exact he0
        · cases hw : UserRepository.findByEmail s e with
          | none =>
            intro hbe
            exfalso
            have := List.find?_eq_none.1 hw b hbmem
            simp only [beq_iff_eq] at this
            exact this hbe.symm
          | some w =>
            have hw' : s.find? (fun v => v.email == e) = some w := hw
            have hwid : w.id = id := emailConflict_false_inv hconf hde he0 hw
            have hwmem : w ∈ s :=
              List.mem_of_find?_eq_some (p := fun v : User => v.email == e) hw'
            have hwe : w.email = e := by
              have := List.find?_some (p := fun v : User => v.email == e) (a := w) hw'
              simpa using this
            obtain ⟨k, hk⟩ := List.getElem?_of_mem hwmem
            rcases eq_or_ne k (s.findIdx (fun v => v.id == id)) with hki | hki
            · subst hki
              have hwu : w = u := by
                rw [hget] at hk
                exact (Option.some.inj hk).symm
              intro hbe
              exfalso
              have hrel := pairwise_rel_of_ne nonemptyEmailRel_symm ih.2
                (Ne.symm hj) hget hb
              have hue : u.email = e := by rw [← hwu, hwe]
              exact he0 (by rw [← hue]; exact hrel (by rw [hue, ← hbe]))
            · exfalso
              have ihn : (s.map User.id).Pairwise (fun a b => a ≠ b) := ih.1
              have hka : (s.map User.id)[k]? = some w.id := by simp [hk]
              have hia : (s.map User.id)[s.findIdx (fun v => v.id == id)]? =
                  some u.id := by simp [hget]
              have hidsne := pairwise_rel_of_ne (R := fun a b : String => a ≠ b)
                (fun a b hab hba => hab hba.symm) ihn hki hka hia
              exact hidsne (by rw [hwid, huid])
  | deleteOk hr heq ih =>
    rename_i s id now u s'
    obtain ⟨u0, -, -, hs⟩ := delete_some_inv heq
    subst hs
    have hsub := List.eraseIdx_sublist s (s.findIdx (fun v => v.id == id))
    exact ⟨List.Nodup.sublist (hsub.map User.id) ih.1,
      List.Pairwise.sublist hsub ih.2⟩

/-- Witness for `reachable_ids_nonempty_emails_unique`: the seeded state
itself. -/
theorem reachable_ids_nonempty_emails_unique_witness :
    IdsUnique UserRepository.seedUsers ∧
    NonemptyEmailsUnique UserRepository.seedUsers :=
  reachable_ids_nonempty_emails_unique UserRepository.seedUsers Reachable.seed
